import Mathlib

/-
Verification of the shared-store notifier of stein197/rehook.

The subject code is `createStore` with its inner `update` function
(src/index.ts, lines 486-513) and the earlier `createGlobal` variant
(src/index.ts, lines 691-711), together with the React hook lines of the
returned bind function (lines 502-511).

Modelling decisions, each matching a concrete JavaScript semantics of the
source:
* A JS value compared by `===` is modelled as an element of an opaque type
  `V` with decidable equality; `undefined` is adjoined through `Option`, so
  a runtime value is a `JsVal V := Option V` and `none` plays `undefined`.
* A JS object is an insertion-ordered association list `List (String × JsVal V)`.
  Property read on a missing key yields `undefined`; property write updates
  the entry in place when the key exists and appends it otherwise, exactly
  the enumeration-order behaviour of plain JS objects for non-integer-like
  keys.
* The `listeners` object maps a consumer id (from `React.useId`, whose
  results are never integer-like strings, so `for...in` enumerates them in
  insertion order) to the registered tuple `[key, setState, force]`.  The
  callbacks are represented by emitting `Notif` events instead of invoking
  opaque functions: `Notif.setState id v` records `setState(v)` being called
  for the consumer `id`, and `Notif.force id` records `force()`.
* `update` destructures `listeners[id]`; when the id is absent the JS code
  throws a `TypeError` (destructuring `undefined`), modelled as `.error ()`
  of `Except Unit`.
* The writer's registered key `queryKey` may be `undefined` (keyless bind).
  A property access `store[queryKey]` coerces the key to the string
  "undefined", while the loop's strict comparison `queryKey === key` does
  not coerce; `jsKeyToString` and plain `Option` equality keep the two
  apart.  The truthiness test `!key` holds for `undefined` and for the
  empty string, captured by `falsyKey`.
-/

set_option linter.unusedSectionVars false

abbrev JsVal (V : Type) := Option V

abbrev JsRecord (V : Type) := List (String × JsVal V)

variable {V : Type} [DecidableEq V]

/-- Read of `o[k]` on a plain JS object: the stored value, or `undefined`
(`none`) when the property is missing. -/
def getProp : JsRecord V → String → JsVal V
  | [], _ => none
  | e :: rest, k => if e.1 = k then e.2 else getProp rest k

/-- Write of `o[k] = v` on a plain JS object: overwrite in place, keeping the
property's enumeration position, or append a fresh property at the end. -/
def setProp : JsRecord V → String → JsVal V → JsRecord V
  | [], k, v => [(k, v)]
  | e :: rest, k, v => if e.1 = k then (k, v) :: rest else e :: setProp rest k v

/-- JS string coercion of a property key that may be `undefined`:
`store[undefined]` accesses the property named "undefined". -/
def jsKeyToString : Option String → String
  | none => "undefined"
  | some s => s

/-- Truthiness test `!key` of the loop in `update`: holds for `undefined`
and for the empty string. -/
def falsyKey : Option String → Bool
  | none => true
  | some s => s = ""

/-- A callback invocation recorded during the notify loop of `update`:
either `setState(v)` or `force()` of the consumer with the given id. -/
inductive Notif (V : Type) where
  | setState : Nat → JsVal V → Notif V
  | force : Nat → Notif V
  deriving DecidableEq, Repr

/-- Consumer id a recorded invocation is addressed to. -/
def notifTarget : Notif V → Nat
  | .setState i _ => i
  | .force i => i

/-- Argument accepted by the `setState` returned from the bind function:
either a plain value or an updater function (`state instanceof Function`). -/
inductive SetArg (V : Type) where
  | val : JsVal V → SetArg V
  | updater : (JsVal V → JsVal V) → SetArg V

/-- State owned by one `createStore` instance: the mutable record `store`
and the insertion-ordered `listeners` map from consumer id to watched key
(the stored `setState` and `force` callbacks are represented by the
consumer id itself, since notifications are recorded as `Notif` events). -/
structure StoreState (V : Type) where
  store : JsRecord V
  listeners : List (Nat × Option String)
  deriving Repr

/-- Lookup `listeners[id]`, returning the registered watched key. -/
def lookupListener (ls : List (Nat × Option String)) (id : Nat) : Option (Option String) :=
  match ls.find? (fun e => e.1 == id) with
  | some e => some e.2
  | none => none

/-- Resolution of the new value in `update`:
`state instanceof Function ? state(store[queryKey]) : state`. -/
def argValue (st : StoreState V) (queryKey : Option String) : SetArg V → JsVal V
  | .val v => v
  | .updater f => f (getProp st.store (jsKeyToString queryKey))

/-- The `for (const id in listeners)` loop of `update`, run on the store
record after the write: each registration whose key strictly equals the
writer's `queryKey` receives `setState(store[key])`, and each registration
with a falsy key receives `force()`, in insertion order of the map. -/
def notifyAll : List (Nat × Option String) → Option String → JsRecord V → List (Notif V)
  | [], _, _ => []
  | e :: rest, queryKey, written =>
      ((if queryKey = e.2 then [Notif.setState e.1 (getProp written (jsKeyToString e.2))] else [])
        ++ (if falsyKey e.2 then [Notif.force e.1] else []))
      ++ notifyAll rest queryKey written

/-- Embedding of `update` from `createStore` (src/index.ts, lines 488-501).
`.error ()` models the TypeError thrown by `const [queryKey] = listeners[id]`
when the registration is absent.  On success it returns the next store state
together with the recorded callback invocations. -/
def update (st : StoreState V) (id : Nat) (arg : SetArg V) :
    Except Unit (StoreState V × List (Notif V)) :=
  match lookupListener st.listeners id with
  | none => .error ()
  | some queryKey =>
    let cur := getProp st.store (jsKeyToString queryKey)
    let newState := argValue st queryKey arg
    if cur = newState then
      .ok (st, [])
    else
      let written := setProp st.store (jsKeyToString queryKey) newState
      .ok ({ st with store := written }, notifyAll st.listeners queryKey written)

/-- The effect `listeners[id] = [key, setState, force]` run on mount:
overwrite in place when the id is present, append otherwise. -/
def registerListener (st : StoreState V) (id : Nat) (key : Option String) : StoreState V :=
  { st with listeners :=
      if st.listeners.any (fun e => e.1 == id)
      then st.listeners.map (fun e => if e.1 == id then (id, key) else e)
      else st.listeners ++ [(id, key)] }

/-- The cleanup `delete listeners[id]` run on unmount. -/
def removeListener (st : StoreState V) (id : Nat) : StoreState V :=
  { st with listeners := st.listeners.filter (fun e => !(e.1 == id)) }

theorem jsKeyToString_some (s : String) : jsKeyToString (some s) = s := rfl

theorem getProp_setProp_self (o : JsRecord V) (k : String) (v : JsVal V) :
    getProp (setProp o k v) k = v := by
  induction o with
  | nil => simp [getProp, setProp]
  | cons e rest ih =>
    by_cases h : e.1 = k
    · simp [getProp, setProp, h]
    · simp [getProp, setProp, h, ih]

theorem getProp_setProp_ne (o : JsRecord V) (k k' : String) (v : JsVal V)
    (h : k' ≠ k) : getProp (setProp o k v) k' = getProp o k' := by
  induction o with
  | nil => simp [getProp, setProp, Ne.symm h]
  | cons e rest ih =>
    by_cases he : e.1 = k
    · simp [getProp, setProp, he, Ne.symm h]
    · simp only [setProp, if_neg he, getProp]
      by_cases he' : e.1 = k'
      · simp [he']
      · simp [he', ih]

theorem lookupListener_mem (ls : List (Nat × Option String)) (id : Nat) (k : Option String)
    (h : lookupListener ls id = some k) : (id, k) ∈ ls := by
  unfold lookupListener at h
  cases hf : ls.find? (fun e => e.1 == id) with
  | none => rw [hf] at h; cases h
  | some e =>
    rw [hf] at h
    have hmem : e ∈ ls := List.mem_of_find?_eq_some hf
    have hp := List.find?_some hf
    have hid : e.1 = id := by simpa using hp
    have hk : e.2 = k := by injection h
    have : e = (id, k) := by
      cases e
      simp_all
    rw [this] at hmem
    exact hmem

theorem update_noop (st : StoreState V) (id : Nat) (qk : Option String) (arg : SetArg V)
    (hl : lookupListener st.listeners id = some qk)
    (he : getProp st.store (jsKeyToString qk) = argValue st qk arg) :
    update st id arg = .ok (st, []) := by
  unfold update
  rw [hl]
  simp [he]

theorem update_eff (st : StoreState V) (id : Nat) (qk : Option String) (arg : SetArg V)
    (hl : lookupListener st.listeners id = some qk)
    (hne : getProp st.store (jsKeyToString qk) ≠ argValue st qk arg) :
    update st id arg = .ok
      ({ st with store := setProp st.store (jsKeyToString qk) (argValue st qk arg) },
        notifyAll st.listeners qk (setProp st.store (jsKeyToString qk) (argValue st qk arg))) := by
  unfold update
  rw [hl]
  simp [hne]

theorem setState_mem_notifyAll (ls : List (Nat × Option String)) (qk : Option String)
    (written : JsRecord V) (i : Nat) (hk : (i, qk) ∈ ls) :
    Notif.setState i (getProp written (jsKeyToString qk)) ∈ notifyAll ls qk written := by
  induction ls with
  | nil => cases hk
  | cons e rest ih =>
    rcases List.mem_cons.mp hk with hhead | htail
    · subst hhead
      simp [notifyAll, List.mem_append]
    · simp only [notifyAll, List.mem_append]
      exact Or.inr (ih htail)

theorem force_mem_notifyAll (ls : List (Nat × Option String)) (qk : Option String)
    (written : JsRecord V) (j : Nat) (kj : Option String) (hk : (j, kj) ∈ ls)
    (hf : falsyKey kj = true) :
    Notif.force j ∈ notifyAll ls qk written := by
  induction ls with
  | nil => cases hk
  | cons e rest ih =>
    rcases List.mem_cons.mp hk with hhead | htail
    · subst hhead
      simp [notifyAll, List.mem_append, hf]
    · simp only [notifyAll, List.mem_append]
      exact Or.inr (ih htail)

theorem notifyAll_target (ls : List (Nat × Option String)) (qk : Option String)
    (written : JsRecord V) (x : Notif V) (hx : x ∈ notifyAll ls qk written) :
    ∃ e ∈ ls, e.1 = notifTarget x ∧ (qk = e.2 ∨ falsyKey e.2 = true) := by
  induction ls with
  | nil => simp [notifyAll] at hx
  | cons e rest ih =>
    simp only [notifyAll, List.mem_append] at hx
    rcases hx with (hblock | hrest)
    · rcases hblock with (hmatch | hforce)
      · by_cases hq : qk = e.2
        · rw [if_pos hq] at hmatch
          simp only [List.mem_singleton] at hmatch
          subst hmatch
          exact ⟨e, List.mem_cons_self e rest, rfl, Or.inl hq⟩
        · rw [if_neg hq] at hmatch
          cases hmatch
      · by_cases hfk : falsyKey e.2 = true
        · rw [if_pos hfk] at hforce
          simp only [List.mem_singleton] at hforce
          subst hforce
          exact ⟨e, List.mem_cons_self e rest, rfl, Or.inr hfk⟩
        · rw [if_neg hfk] at hforce
          cases hforce
    · obtain ⟨e', he', ht, hd⟩ := ih hrest
      exact ⟨e', List.mem_cons_of_mem e he', ht, hd⟩

theorem snd_eq_of_nodup_fst {α β : Type} (l : List (α × β))
    (hn : (l.map Prod.fst).Nodup) {a : α} {b c : β}
    (h1 : (a, b) ∈ l) (h2 : (a, c) ∈ l) : b = c := by
  induction l with
  | nil => cases h1
  | cons e rest ih =>
    simp only [List.map_cons, List.nodup_cons] at hn
    rcases List.mem_cons.mp h1 with hb | hb <;> rcases List.mem_cons.mp h2 with hc | hc
    · rw [← hb] at hc
      injection hc with _ h
      exact h.symm
    · exfalso
      apply hn.1
      have ha : a = e.1 := by rw [← hb]
      rw [ha] at hc
      exact List.mem_map.mpr ⟨(e.1, c), hc, rfl⟩
    · exfalso
      apply hn.1
      have ha : a = e.1 := by rw [← hc]
      rw [ha] at hb
      exact List.mem_map.mpr ⟨(e.1, b), hb, rfl⟩
    · exact ih hn.2 hb hc

def kNum : String := "num"

def undefinedKey : String := "undefined"

/-- Store of the spec scenario together with one consumer (id 0) bound to
the key "num" and one keyless consumer (id 1). -/
def exStoreKl : StoreState Nat :=
  ⟨[(kNum, some 12)], [(0, some kNum), (1, none)]⟩

/-- C3: for a consumer bound to key `k`, calling its `setState` with a value
that is reference-equal (`===`) to the current `store[k]` is a complete
no-op: the store state is returned unchanged and no callback is invoked. -/
theorem setValue_same_value_noop (st : StoreState V) (id : Nat) (k : String) (v : JsVal V)
    (hl : lookupListener st.listeners id = some (some k))
    (hv : v = getProp st.store k) :
    update st id (SetArg.val v) = .ok (st, []) := by
  apply update_noop st id (some k) (SetArg.val v) hl
  simp [argValue, jsKeyToString, hv]

theorem setValue_same_value_noop_witness :
    lookupListener exStoreKl.listeners 0 = some (some kNum) ∧
    (some 12 : JsVal Nat) = getProp exStoreKl.store kNum ∧
    update exStoreKl 0 (SetArg.val (some 12)) = .ok (exStoreKl, []) :=
  ⟨rfl, rfl, setValue_same_value_noop exStoreKl 0 kNum (some 12) rfl rfl⟩

/-- Store with one remaining consumer (id 1) bound to "num"; consumer 0 was
formerly bound to "num" and has stopped observing. -/
def exStoreGone : StoreState Nat := ⟨[(kNum, some 12)], [(1, some kNum)]⟩

/-- C4 (code bug evaluation): consumer 0 registers for "num" and then stops
observing (`delete listeners[id]`), leaving `exStoreGone`.  A subsequent
write by the still-registered consumer 1 raises no error and delivers no
callback to consumer 0 — but when the stopped consumer 0 invokes its own
retained `setState`, `update` destructures `listeners[id]` with the entry
absent, i.e. the JS code throws a TypeError instead of being a no-op. -/
theorem setValue_after_removal_eval :
    removeListener (registerListener exStoreGone 0 (some kNum)) 0 = exStoreGone ∧
    update exStoreGone 1 (SetArg.val (some 13))
      = .ok (⟨[(kNum, some 13)], [(1, some kNum)]⟩, [Notif.setState 1 (some 13)]) ∧
    update exStoreGone 0 (SetArg.val (some 14)) = .error () :=
  ⟨rfl, rfl, rfl⟩

/-- C2 (code bug evaluation): a whole-store write issued through the keyless
binding of `exStoreKl` (consumer 1, value 99 standing for the replacement
record).  `store[queryKey]` coerces the `undefined` key to the string
"undefined", so the store is NOT replaced: it keeps `num = 12` and gains a
new property "undefined"; and the loop notifies only the keyless
registration (consumer 1 gets `setState` and `force`) while the keyed
registration (consumer 0, watching "num") receives nothing. -/
theorem keyless_setValue_eval :
    update exStoreKl 1 (SetArg.val (some 99))
      = .ok (⟨[(kNum, some 12), (undefinedKey, some 99)], [(0, some kNum), (1, none)]⟩,
          [Notif.setState 1 (some 99), Notif.force 1]) ∧
    [Notif.setState 1 (some (99 : Nat)), Notif.force 1].map notifTarget = [1, 1] :=
  ⟨rfl, rfl⟩

/-- C6 (code bug evaluation): the key set of `exStoreKl`'s record is
`[num]` at creation, yet the keyless effective write of consumer 1 adds the
property "undefined", growing the key set. -/
theorem keyless_setValue_grows_keys :
    exStoreKl.store.map Prod.fst = [kNum] ∧
    (update exStoreKl 1 (SetArg.val (some 99))).map (fun r => r.1.store.map Prod.fst)
      = .ok [kNum, undefinedKey] ∧
    (([kNum] : List String) == [kNum, undefinedKey]) = false :=
  ⟨rfl, rfl, by decide⟩

/-- C7: on every effective write — keyed or keyless, the no-op guard not
taken — every registration created by the keyless bind (watched key
`undefined`) has its `force` callback invoked, whichever key the write
targets. -/
theorem effective_write_forces_keyless (st : StoreState V) (w : Nat) (qk : Option String)
    (arg : SetArg V)
    (hl : lookupListener st.listeners w = some qk)
    (heff : getProp st.store (jsKeyToString qk) ≠ argValue st qk arg) :
    ∃ st1 n, update st w arg = .ok (st1, n) ∧
      ∀ j, (j, (none : Option String)) ∈ st.listeners → Notif.force j ∈ n := by
  refine ⟨_, _, update_eff st w qk arg hl heff, ?_⟩
  intro j hj
  exact force_mem_notifyAll st.listeners qk _ j none hj rfl

theorem effective_write_forces_keyless_witness :
    lookupListener exStoreKl.listeners 0 = some (some kNum) ∧
    getProp exStoreKl.store (jsKeyToString (some kNum)) ≠
      argValue exStoreKl (some kNum) (SetArg.val (some 13)) ∧
    ∃ st1 n, update exStoreKl 0 (SetArg.val (some 13)) = .ok (st1, n) ∧
      ∀ j, (j, (none : Option String)) ∈ exStoreKl.listeners → Notif.force j ∈ n :=
  ⟨rfl, by decide,
    effective_write_forces_keyless exStoreKl 0 (some kNum) (SetArg.val (some 13)) rfl
      (by decide)⟩

/-- C5: a `setState` call carrying an updater function writes
`updater(store[k])` computed from the current value of the bound key, and
every consumer bound to that key has its `setState` invoked with the result
(provided the result differs by `===` from the current value; otherwise the
guard `if (store[queryKey] === newState) return` of the same function makes
the call a no-op, as the spec's idempotence rule requires). -/
theorem setValue_updater_applies (st : StoreState V) (w : Nat) (k : String)
    (f : JsVal V → JsVal V)
    (hl : lookupListener st.listeners w = some (some k))
    (heff : f (getProp st.store k) ≠ getProp st.store k) :
    ∃ st1 n, update st w (SetArg.updater f) = .ok (st1, n) ∧
      getProp st1.store k = f (getProp st.store k) ∧
      ∀ i, (i, some k) ∈ st.listeners →
        Notif.setState i (f (getProp st.store k)) ∈ n := by
  have hav : argValue st (some k) (SetArg.updater f) = f (getProp st.store k) := by
    simp [argValue, jsKeyToString]
  have heff2 : getProp st.store (jsKeyToString (some k))
      ≠ argValue st (some k) (SetArg.updater f) := by
    rw [jsKeyToString_some, hav]
    exact fun h => heff h.symm
  refine ⟨_, _, update_eff st w (some k) (SetArg.updater f) hl heff2, ?_, ?_⟩
  · show getProp (setProp st.store (jsKeyToString (some k))
        (argValue st (some k) (SetArg.updater f))) k = f (getProp st.store k)
    rw [jsKeyToString_some, getProp_setProp_self, hav]
  · intro i hi
    have hmem := setState_mem_notifyAll st.listeners (some k)
      (setProp st.store (jsKeyToString (some k)) (argValue st (some k) (SetArg.updater f)))
      i hi
    rw [jsKeyToString_some, getProp_setProp_self, hav] at hmem
    exact hmem

/-- Doubling updater of the spec scenario, mapping `undefined` to itself. -/
def doubleNum : JsVal Nat → JsVal Nat
  | some n => some (2 * n)
  | none => none

/-- Store of the scenario with two consumers (ids 0 and 1) both bound to
"num". -/
def exStoreTwo : StoreState Nat :=
  ⟨[(kNum, some 12)], [(0, some kNum), (1, some kNum)]⟩

theorem setValue_updater_applies_witness :
    lookupListener exStoreTwo.listeners 0 = some (some kNum) ∧
    doubleNum (getProp exStoreTwo.store kNum) ≠ getProp exStoreTwo.store kNum ∧
    ∃ st1 n, update exStoreTwo 0 (SetArg.updater doubleNum) = .ok (st1, n) ∧
      getProp st1.store kNum = doubleNum (getProp exStoreTwo.store kNum) ∧
      ∀ i, (i, some kNum) ∈ exStoreTwo.listeners →
        Notif.setState i (doubleNum (getProp exStoreTwo.store kNum)) ∈ n :=
  ⟨rfl, by decide,
    setValue_updater_applies exStoreTwo 0 kNum doubleNum rfl (by decide)⟩

theorem notifyAll_keyed_skips (ls : List (Nat × Option String)) (k : String)
    (written : JsRecord V) (j : Nat) (k2 : String)
    (hnodup : (ls.map Prod.fst).Nodup) (hj : (j, some k2) ∈ ls)
    (hk2 : k2 ≠ k) (hk2e : k2 ≠ "") (x : Notif V)
    (hx : x ∈ notifyAll ls (some k) written) : notifTarget x ≠ j := by
  intro ht
  obtain ⟨e, he, hte, hd⟩ := notifyAll_target ls (some k) written x hx
  have h1 : e.1 = j := by rw [hte, ht]
  have hje : (j, e.2) ∈ ls := by
    have he2 : (e.1, e.2) ∈ ls := by simpa using he
    rwa [h1] at he2
  have hsnd : (some k2 : Option String) = e.2 := snd_eq_of_nodup_fst ls hnodup hj hje
  rcases hd with hd | hd
  · rw [← hsnd] at hd
    injection hd with hd2
    exact hk2 hd2.symm
  · rw [← hsnd] at hd
    simp only [falsyKey, decide_eq_true_eq] at hd
    exact hk2e hd

theorem setState_val_mem_notifyAll (ls : List (Nat × Option String)) (k : String)
    (o : JsRecord V) (v : JsVal V) (i : Nat) (hi : (i, some k) ∈ ls) :
    Notif.setState i v ∈ notifyAll ls (some k) (setProp o k v) := by
  have hmem := setState_mem_notifyAll ls (some k) (setProp o k v) i hi
  rw [jsKeyToString_some, getProp_setProp_self] at hmem
  exact hmem

def kX : String := "x"

def kEmpty : String := ""

/-- Record holding the keys "x" and "", with a consumer (id 0) bound to "x"
and a consumer (id 1) bound to the empty-string key. -/
def exStoreEmptyKey : StoreState Nat :=
  ⟨[(kX, some 1), (kEmpty, some 5)], [(0, some kX), (1, some kEmpty)]⟩

/-- C1 (counterexample): consumer 1 of `exStoreEmptyKey` is bound to the
key "" with "" ≠ "x", yet when consumer 0 issues `setState(2)` followed by
`setState(3)` on its key "x", both notify loops invoke consumer 1's `force`
callback, because the loop guard `!key` treats the empty-string key as
falsy.  So a consumer bound to a different key DOES receive a notification
from each write, contrary to the claim as stated. -/
theorem two_keyed_writes_cex :
    (1, some kEmpty) ∈ exStoreEmptyKey.listeners ∧ ((kEmpty == kX) = false) ∧
    update exStoreEmptyKey 0 (SetArg.val (some 2))
      = .ok (⟨[(kX, some 2), (kEmpty, some 5)], exStoreEmptyKey.listeners⟩,
          [Notif.setState 0 (some 2), Notif.force 1]) ∧
    update (⟨[(kX, some 2), (kEmpty, some 5)], exStoreEmptyKey.listeners⟩ : StoreState Nat) 0
        (SetArg.val (some 3))
      = .ok (⟨[(kX, some 3), (kEmpty, some 5)], exStoreEmptyKey.listeners⟩,
          [Notif.setState 0 (some 3), Notif.force 1]) ∧
    notifTarget (Notif.force 1 : Notif Nat) = 1 :=
  ⟨by decide, by decide, rfl, rfl, rfl⟩

/-- C1 (amended): after a consumer bound to `k` issues `setState(v1)` then
`setState(v2)` with `v1 ≠ v2`, every consumer bound to `k` has its
`setState` invoked with `v2` by the second write, and every consumer bound
to a different NON-EMPTY key `k2 ≠ k` receives no callback from either
write (a consumer bound to the empty-string key is treated by the loop's
truthiness test as a whole-store subscriber and receives `force`
notifications, see the counterexample). -/
theorem two_keyed_writes (st : StoreState V) (w : Nat) (k : String) (v1 v2 : JsVal V)
    (hl : lookupListener st.listeners w = some (some k))
    (hnodup : (st.listeners.map Prod.fst).Nodup)
    (hne : v1 ≠ v2) :
    ∃ st1 n1 st2 n2,
      update st w (SetArg.val v1) = .ok (st1, n1) ∧
      update st1 w (SetArg.val v2) = .ok (st2, n2) ∧
      (∀ i, (i, some k) ∈ st.listeners → Notif.setState i v2 ∈ n2) ∧
      (∀ j k2, (j, some k2) ∈ st.listeners → k2 ≠ k → k2 ≠ "" →
        ∀ x, (x ∈ n1 ∨ x ∈ n2) → notifTarget x ≠ j) := by
  by_cases h1 : getProp st.store k = v1
  · have e1 : update st w (SetArg.val v1) = .ok (st, []) := by
      apply update_noop st w (some k) (SetArg.val v1) hl
      exact h1
    have h2 : getProp st.store (jsKeyToString (some k))
        ≠ argValue st (some k) (SetArg.val v2) := by
      rw [jsKeyToString_some]
      show getProp st.store k ≠ v2
      rw [h1]
      exact hne
    have e2 := update_eff st w (some k) (SetArg.val v2) hl h2
    refine ⟨st, [], _, _, e1, e2, ?_, ?_⟩
    · intro i hi
      have hmem := setState_mem_notifyAll st.listeners (some k)
        (setProp st.store (jsKeyToString (some k)) (argValue st (some k) (SetArg.val v2))) i hi
      rw [jsKeyToString_some, getProp_setProp_self] at hmem
      exact hmem
    · intro j k2 hj hk2 hk2e x hx
      rcases hx with hx | hx
      · cases hx
      · exact notifyAll_keyed_skips st.listeners k _ j k2 hnodup hj hk2 hk2e x hx
  · have h1e : getProp st.store (jsKeyToString (some k))
        ≠ argValue st (some k) (SetArg.val v1) := by
      rw [jsKeyToString_some]
      exact h1
    have e1 := update_eff st w (some k) (SetArg.val v1) hl h1e
    have hget : getProp (setProp st.store k v1) k = v1 := getProp_setProp_self st.store k v1
    have h2 : getProp (setProp st.store k v1) k ≠ v2 := by
      rw [hget]
      exact hne
    have e2 := update_eff
      (StoreState.mk
        (setProp st.store (jsKeyToString (some k)) (argValue st (some k) (SetArg.val v1)))
        st.listeners) w (some k) (SetArg.val v2) hl h2
    refine ⟨_, _, _, _, e1, e2, ?_, ?_⟩
    · intro i hi
      exact setState_val_mem_notifyAll st.listeners k _ v2 i hi
    · intro j k2 hj hk2 hk2e x hx
      rcases hx with hx | hx
      · exact notifyAll_keyed_skips st.listeners k _ j k2 hnodup hj hk2 hk2e x hx
      · exact notifyAll_keyed_skips st.listeners k _ j k2 hnodup hj hk2 hk2e x hx

def kY : String := "y"

/-- Record with keys "x" and "y"; consumer 0 is bound to "x" and consumer 2
to "y". -/
def exStoreXY : StoreState Nat :=
  ⟨[(kX, some 1), (kY, some 7)], [(0, some kX), (2, some kY)]⟩

theorem two_keyed_writes_witness :
    lookupListener exStoreXY.listeners 0 = some (some kX) ∧
    (exStoreXY.listeners.map Prod.fst).Nodup ∧
    ((some 2 : JsVal Nat) ≠ some 3) ∧
    (∃ st1 n1 st2 n2,
      update exStoreXY 0 (SetArg.val (some 2)) = .ok (st1, n1) ∧
      update st1 0 (SetArg.val (some 3)) = .ok (st2, n2) ∧
      (∀ i, (i, some kX) ∈ exStoreXY.listeners → Notif.setState i (some 3) ∈ n2) ∧
      (∀ j k2, (j, some k2) ∈ exStoreXY.listeners → k2 ≠ kX → k2 ≠ "" →
        ∀ x, (x ∈ n1 ∨ x ∈ n2) → notifTarget x ≠ j)) :=
  ⟨rfl, by decide, by decide,
    two_keyed_writes exStoreXY 0 kX (some 2) (some 3) rfl (by decide) (by decide)⟩

/-- Projection of a recorded invocation to its `setState` payload, used to
extract the notify subsequence of the loop's event sequence. -/
def setStateOf : Notif V → Option (Nat × JsVal V)
  | .setState i v => some (i, v)
  | .force _ => none

theorem filterMap_setStateOf_notifyAll (ls : List (Nat × Option String)) (qk : Option String)
    (written : JsRecord V) :
    (notifyAll ls qk written).filterMap setStateOf
      = (ls.filter (fun e => decide (qk = e.2))).map
          (fun e => (e.1, getProp written (jsKeyToString e.2))) := by
  induction ls with
  | nil => simp [notifyAll]
  | cons e rest ih =>
    by_cases hq : qk = e.2
    · subst hq
      by_cases hf : falsyKey e.2 = true
      · simp [notifyAll, List.filterMap_append, List.filter_cons, hf, setStateOf, ih]
      · simp [notifyAll, List.filterMap_append, List.filter_cons, hf, setStateOf, ih]
    · by_cases hf : falsyKey e.2 = true
      · simp [notifyAll, List.filterMap_append, List.filter_cons, hq, hf, setStateOf, ih]
      · simp [notifyAll, List.filterMap_append, List.filter_cons, hq, hf, setStateOf, ih]

/-- C10: an effective keyed write is deterministic and notifies each
matching registration exactly once: the `setState` invocation subsequence of
the produced event sequence is exactly the list of registrations watching
the written key, in the enumeration (insertion) order of the listeners map,
each paired with the written value; and any store state with equal listener
map and record produces the identical outcome. -/
theorem keyed_write_order (st : StoreState V) (w : Nat) (k : String) (arg : SetArg V)
    (hl : lookupListener st.listeners w = some (some k))
    (heff : getProp st.store k ≠ argValue st (some k) arg) :
    ∃ st1 n, update st w arg = .ok (st1, n) ∧
      n.filterMap setStateOf
        = (st.listeners.filter (fun e => decide ((some k : Option String) = e.2))).map
            (fun e => (e.1, argValue st (some k) arg)) ∧
      (∀ st2 : StoreState V, st2.store = st.store → st2.listeners = st.listeners →
        update st2 w arg = update st w arg) := by
  have heff2 : getProp st.store (jsKeyToString (some k)) ≠ argValue st (some k) arg := by
    rw [jsKeyToString_some]
    exact heff
  refine ⟨_, _, update_eff st w (some k) arg hl heff2, ?_, ?_⟩
  · rw [filterMap_setStateOf_notifyAll]
    apply List.map_congr_left
    intro e he
    have hemem := List.mem_filter.mp he
    have hek : (some k : Option String) = e.2 := by
      have h2 := hemem.2
      simpa using h2
    rw [← hek, jsKeyToString_some, getProp_setProp_self]
  · intro st2 hstore hls
    have hst : st2 = st := by
      cases st2
      cases st
      simp_all
    rw [hst]

theorem keyed_write_order_witness :
    lookupListener exStoreTwo.listeners 0 = some (some kNum) ∧
    getProp exStoreTwo.store kNum ≠ argValue exStoreTwo (some kNum) (SetArg.val (some 13)) ∧
    (∃ st1 n, update exStoreTwo 0 (SetArg.val (some 13)) = .ok (st1, n) ∧
      n.filterMap setStateOf
        = (exStoreTwo.listeners.filter
            (fun e => decide ((some kNum : Option String) = e.2))).map
            (fun e => (e.1, argValue exStoreTwo (some kNum) (SetArg.val (some 13)))) ∧
      (∀ st2 : StoreState Nat, st2.store = exStoreTwo.store →
        st2.listeners = exStoreTwo.listeners →
        update st2 0 (SetArg.val (some 13)) = update exStoreTwo 0 (SetArg.val (some 13)))) :=
  ⟨rfl, by decide, keyed_write_order exStoreTwo 0 kNum (SetArg.val (some 13)) rfl (by decide)⟩

/-- Memo-cell semantics of `React.useCallback` with the one-element
dependency array `[id]`: when the stored dependency equals the current one,
the cached function reference is returned; otherwise the freshly allocated
function is cached and returned.  Function references are represented by
natural numbers. -/
def useCallbackId (cell : Option (Nat × Nat)) (id : Nat) (freshRef : Nat) : Nat × Nat :=
  match cell with
  | some c => if c.1 = id then c else (id, freshRef)
  | none => (id, freshRef)

/-- Hook cells of one consumer of the bind function that the dispatch line
reads: the `React.useId` value, which stays fixed for the consumer's
lifetime, and the `useCallback` memo cell holding the pair
(dependency, function reference). -/
structure ConsumerCells where
  id : Nat
  dispatchCell : Option (Nat × Nat)

/-- One render pass over the line
`const dispatch = React.useCallback(state => update(id, state), [id])`
(src/index.ts, line 506): `freshRef` is the reference of the arrow function
newly allocated by this render, and the returned number is the function
reference the consumer receives as its `setState`. -/
def renderDispatch (c : ConsumerCells) (freshRef : Nat) : ConsumerCells × Nat :=
  let cell := useCallbackId c.dispatchCell c.id freshRef
  ({ c with dispatchCell := some cell }, cell.2)

/-- C8: the dispatch (`setState`) function handed to a consumer is
referentially stable across that consumer's re-renders: since `React.useId`
keeps the consumer's id fixed, two consecutive render passes return the
same function reference, whatever fresh function objects the renders
allocate. -/
theorem renderDispatch_stable (c : ConsumerCells) (r1 r2 : Nat) :
    (renderDispatch (renderDispatch c r1).1 r2).2 = (renderDispatch c r1).2 := by
  cases c with
  | mk id cell =>
    cases cell with
    | none => simp [renderDispatch, useCallbackId]
    | some p =>
      by_cases h : p.1 = id
      · simp [renderDispatch, useCallbackId, h]
      · simp [renderDispatch, useCallbackId, h]

/-- Sequential property assignment: spreading a list of properties into an
object one by one, later assignments overriding earlier values while keeping
the first-insertion position — the semantics of the object spread. -/
def assignAll (acc : JsRecord V) : JsRecord V → JsRecord V
  | [] => acc
  | e :: rest => assignAll (setProp acc e.1 e.2) rest

/-- Embedding of the reducer body of `createGlobal`
(src/index.ts, line 694): `{...curState, ...newState}` builds a fresh object
by spreading the current state first and the update second. -/
def spreadMerge (cur upd : JsRecord V) : JsRecord V :=
  assignAll (assignAll [] cur) upd

/-- State of one `createGlobal` instance: the module-level `global` record
and the `dispatchArray` in push order, each dispatch paired with the reducer
state of its owning consumer. -/
structure GlobalState (V : Type) where
  global : JsRecord V
  consumers : List (Nat × JsRecord V)

/-- Embedding of `updateGlobal` of `createGlobal` (src/index.ts, lines
696-699) together with the reducer runs it triggers: the same `state` object
is passed to every dispatch of `dispatchArray` in order (second component of
the result, pairing each consumer id with the argument it receives); each
consumer's reducer state becomes `{...curState, ...state}`; and the module
variable `global` is reassigned by every reducer run, so it ends at the
value produced by the last one. -/
def updateGlobal (g : GlobalState V) (upd : JsRecord V) :
    GlobalState V × List (Nat × JsRecord V) :=
  let deliveries := g.consumers.map (fun c => (c.1, upd))
  let consumers2 := g.consumers.map (fun c => (c.1, spreadMerge c.2 upd))
  let global2 := match consumers2.getLast? with
    | some c => c.2
    | none => g.global
  (⟨global2, consumers2⟩, deliveries)

theorem getProp_eq_none_of_not_mem (o : JsRecord V) (k : String)
    (h : k ∉ o.map Prod.fst) : getProp o k = none := by
  induction o with
  | nil => rfl
  | cons e rest ih =>
    simp only [List.map_cons, List.mem_cons] at h
    push_neg at h
    rw [getProp, if_neg (Ne.symm h.1)]
    exact ih h.2

theorem getProp_assignAll_not_mem (s l : JsRecord V) (k : String)
    (h : k ∉ l.map Prod.fst) : getProp (assignAll s l) k = getProp s k := by
  induction l generalizing s with
  | nil => rfl
  | cons e rest ih =>
    simp only [List.map_cons, List.mem_cons] at h
    push_neg at h
    rw [assignAll, ih (setProp s e.1 e.2) h.2, getProp_setProp_ne s e.1 k e.2 h.1]

theorem getProp_assignAll_mem (s l : JsRecord V) (k : String)
    (hn : (l.map Prod.fst).Nodup) (h : k ∈ l.map Prod.fst) :
    getProp (assignAll s l) k = getProp l k := by
  induction l generalizing s with
  | nil => cases h
  | cons e rest ih =>
    simp only [List.map_cons, List.nodup_cons] at hn
    by_cases he : e.1 = k
    · have hnr : k ∉ rest.map Prod.fst := by
        rw [← he]
        exact hn.1
      rw [assignAll, getProp_assignAll_not_mem (setProp s e.1 e.2) rest k hnr, he,
        getProp_setProp_self, getProp, if_pos he]
    · have hmem : k ∈ rest.map Prod.fst := by
        rcases List.mem_cons.mp h with hk | hk
        · exact absurd hk.symm he
        · exact hk
      rw [assignAll, ih (setProp s e.1 e.2) hn.2 hmem, getProp, if_neg he]

theorem getProp_spreadMerge_mem (cur upd : JsRecord V) (k : String)
    (hn : (upd.map Prod.fst).Nodup) (h : k ∈ upd.map Prod.fst) :
    getProp (spreadMerge cur upd) k = getProp upd k :=
  getProp_assignAll_mem (assignAll [] cur) upd k hn h

theorem getProp_spreadMerge_not_mem (cur upd : JsRecord V) (k : String)
    (hcur : (cur.map Prod.fst).Nodup) (h : k ∉ upd.map Prod.fst) :
    getProp (spreadMerge cur upd) k = getProp cur k := by
  unfold spreadMerge
  rw [getProp_assignAll_not_mem (assignAll [] cur) upd k h]
  by_cases hm : k ∈ cur.map Prod.fst
  · exact getProp_assignAll_mem [] cur k hcur hm
  · rw [getProp_assignAll_not_mem [] cur k hm, getProp_eq_none_of_not_mem cur k hm]
    rfl

/-- C9: in the `createGlobal` variant, a write delivers the identical
partial-update object to every registered dispatch, with no per-key
filtering, and each consumer's resulting reducer state is the shallow merge
of its current state with the update: a key present in the update ends up
with exactly the update's value (nested objects are replaced wholesale, not
deep-merged), and a key absent from the update keeps the current state's
value. -/
theorem createGlobal_broadcast (g : GlobalState V) (upd : JsRecord V)
    (hupd : (upd.map Prod.fst).Nodup) :
    (∀ c ∈ g.consumers, (c.1, upd) ∈ (updateGlobal g upd).2) ∧
    (∀ c ∈ g.consumers, (c.1, spreadMerge c.2 upd) ∈ (updateGlobal g upd).1.consumers) ∧
    (∀ s : JsRecord V, ∀ k : String, k ∈ upd.map Prod.fst →
      getProp (spreadMerge s upd) k = getProp upd k) ∧
    (∀ s : JsRecord V, ∀ k : String, (s.map Prod.fst).Nodup → k ∉ upd.map Prod.fst →
      getProp (spreadMerge s upd) k = getProp s k) := by
  refine ⟨?_, ?_, ?_, ?_⟩
  · intro c hc
    exact List.mem_map.mpr ⟨c, hc, rfl⟩
  · intro c hc
    exact List.mem_map.mpr ⟨c, hc, rfl⟩
  · intro s k hk
    exact getProp_spreadMerge_mem s upd k hupd hk
  · intro s k hs hk
    exact getProp_spreadMerge_not_mem s upd k hs hk

def kStr : String := "str"

/-- Shared record of the `createGlobal` scenario. -/
def gRec : JsRecord Nat := [(kNum, some 12), (kStr, some 5)]

/-- Two consumers registered on the same `createGlobal` instance. -/
def exGlobal : GlobalState Nat := ⟨gRec, [(0, gRec), (1, gRec)]⟩

/-- Update of the scenario touching only the "num" key. -/
def exUpd : JsRecord Nat := [(kNum, some 24)]

theorem createGlobal_broadcast_witness :
    (exUpd.map Prod.fst).Nodup ∧
    ((∀ c ∈ exGlobal.consumers, (c.1, exUpd) ∈ (updateGlobal exGlobal exUpd).2) ∧
    (∀ c ∈ exGlobal.consumers,
      (c.1, spreadMerge c.2 exUpd) ∈ (updateGlobal exGlobal exUpd).1.consumers) ∧
    (∀ s : JsRecord Nat, ∀ k : String, k ∈ exUpd.map Prod.fst →
      getProp (spreadMerge s exUpd) k = getProp exUpd k) ∧
    (∀ s : JsRecord Nat, ∀ k : String, (s.map Prod.fst).Nodup → k ∉ exUpd.map Prod.fst →
      getProp (spreadMerge s exUpd) k = getProp s k)) :=
  ⟨by decide, createGlobal_broadcast exGlobal exUpd (by decide)⟩
